import Mathlib

/-!
Verification development for the pure-python-mas repository.

Shallow embedding of the core engine of `src/mas.py` (Blackboard store,
AxiomInverterAgent, PRAAgent) and of the `PatternRecognizer.analyze`
scanner of `src/xcode_forensic.py`.  Python floats are modelled by exact
rationals (ℚ); Python strings by Lean `String`; SQLite tables by Lean
lists of records with explicit autoincrement counters.
-/

namespace MAS

/-- Accumulate maximal runs of non-whitespace characters into tokens. -/
def wsTokens (cur : List Char) : List Char → List String
  | [] => if cur.isEmpty then [] else [String.mk cur.reverse]
  | c :: rest =>
    if c.isWhitespace then
      if cur.isEmpty then wsTokens [] rest
      else String.mk cur.reverse :: wsTokens [] rest
    else wsTokens (c :: cur) rest

/-- Python `str.split()` with no arguments: split on runs of whitespace,
discarding empty fields (hence also leading/trailing whitespace). -/
def splitWs (s : String) : List String :=
  wsTokens [] s.toList

/-- Python `str.lower()` (ASCII; the vocabulary tables are ASCII). -/
def pyLower (s : String) : String :=
  String.mk (s.toList.map Char.toLower)

/-- The punctuation characters stripped in `AxiomInverterAgent.invert_logic`:
`word.lower().strip(".,;:!?")`. -/
def isStripChar (c : Char) : Bool :=
  c = '.' || c = ',' || c = ';' || c = ':' || c = '!' || c = '?'

/-- Python `str.strip(chars)`: remove the given characters from both ends. -/
def pyStrip (s : String) : String :=
  String.mk (((s.toList.dropWhile isStripChar).reverse.dropWhile isStripChar).reverse)

/-- Contiguous-sublist search on character lists. -/
def containsSub (needle : List Char) : List Char → Bool
  | [] => needle.isEmpty
  | c :: rest => needle.isPrefixOf (c :: rest) || containsSub needle rest

/-- Python `needle in hay`: substring containment. -/
def pyContains (needle hay : String) : Bool :=
  containsSub needle.toList hay.toList

/-- Embedding of `AxiomInverterAgent.INVERSIONS` (src/mas.py lines 365-391): the
semantic-inversion table, in source order. -/
def INVERSIONS : List (String × String) :=
  [("deterministic", "non-deterministic and entropy-dependent"),
   ("consistent", "eventually consistent or divergent"),
   ("immutable", "mutated by external side-effects"),
   ("available", "unavailable or rate-limited"),
   ("atomic", "interleaved and race-prone"),
   ("static", "dynamically interposed"),
   ("synchronous", "asynchronous and uncoordinated"),
   ("reliable", "unreliable and failure-prone"),
   ("secure", "vulnerable and exposed"),
   ("fast", "slow and latency-bound"),
   ("safe", "unsafe and hazardous"),
   ("stable", "unstable and volatile"),
   ("isolated", "shared and contended"),
   ("unique", "duplicated or colliding"),
   ("valid", "invalid or malformed"),
   ("complete", "partial or truncated"),
   ("ordered", "unordered or shuffled"),
   ("cached", "uncached and cold"),
   ("persistent", "ephemeral and transient"),
   ("idempotent", "non-idempotent with side-effects"),
   ("stateless", "stateful and context-dependent"),
   ("guaranteed", "best-effort and lossy"),
   ("sequential", "concurrent and racy"),
   ("blocking", "non-blocking but incomplete"),
   ("trusted", "untrusted and adversarial")]

/-- Embedding of `AxiomInverterAgent.NEGATIONS` (src/mas.py lines 394-405): the
negation-prefix table, in source order. -/
def NEGATIONS : List (String × String) :=
  [("always", "sometimes fails to"),
   ("never", "occasionally does"),
   ("will", "may not"),
   ("must", "might not"),
   ("should", "could fail to"),
   ("can", "cannot reliably"),
   ("is", "is not necessarily"),
   ("are", "are not guaranteed to be"),
   ("has", "may lack"),
   ("does", "may fail to")]

/-- The body of the per-word loop of `invert_logic` (src/mas.py lines
431-444): lowercase, strip punctuation, replace by the first matching
table entry (negations checked before inversions), else keep the word. -/
def invertWord (word : String) : String :=
  let lower_word := pyStrip (pyLower word)
  match List.lookup lower_word NEGATIONS with
  | some repl => repl
  | none =>
    match List.lookup lower_word INVERSIONS with
    | some repl => repl
    | none => word

/-- Embedding of `AxiomInverterAgent.invert_logic` (src/mas.py lines 423-452):
tokenize, rewrite each token through the two tables, rejoin with single
spaces; if the result equals the input, wrap it in the generic negation
template. -/
def invert_logic (statement : String) : String :=
  let words := splitWs statement
  let new_words := words.map invertWord
  let result := String.intercalate " " new_words
  if result = statement then "It is NOT guaranteed that: " ++ statement
  else result

/-- Embedding of `PRAAgent.RISK_THRESHOLDS` (src/mas.py lines 630-635), in source
(insertion) order, as iterated by `categorize_risk`. -/
def RISK_THRESHOLDS : List (String × ℚ) :=
  [("CRITICAL", 8/10), ("HIGH", 6/10), ("MEDIUM", 4/10), ("LOW", 2/10)]

/-- The `for level, threshold in ...: if risk_score >= threshold: return level`
loop of `PRAAgent.categorize_risk`: first entry whose threshold is met. -/
def firstAtLeast (risk_score : ℚ) : List (String × ℚ) → Option String
  | [] => none
  | (level, threshold) :: rest =>
    if risk_score ≥ threshold then some level else firstAtLeast risk_score rest

/-- Embedding of `PRAAgent.categorize_risk` (src/mas.py lines 742-747): bin a risk
score by the descending thresholds, defaulting to LOW. -/
def categorize_risk (risk_score : ℚ) : String :=
  (firstAtLeast risk_score RISK_THRESHOLDS).getD "LOW"

/-- Embedding of `PRAAgent.BASE_RATES` (src/mas.py lines 638-647). -/
def BASE_RATES : List (String × ℚ) :=
  [("memory", 15/100), ("concurrency", 20/100), ("security", 10/100),
   ("build", 5/100), ("runtime", 12/100), ("network", 8/100),
   ("storage", 5/100), ("default", 10/100)]

/-- The `risk_keywords` table of `PRAAgent.assess_risk` (src/mas.py
lines 693-703). -/
def risk_keywords : List (String × ℚ) :=
  [("crash", 3/10), ("fail", 2/10), ("corrupt", 25/100), ("leak", 2/10),
   ("race", 25/100), ("vulnerable", 3/10), ("deadlock", 35/100),
   ("overflow", 3/10), ("undefined", 2/10)]

/-- The `severity_keywords` table of `PRAAgent.assess_risk` (src/mas.py
lines 712-720). -/
def severity_keywords : List (String × ℚ) :=
  [("data loss", 1), ("crash", 9/10), ("security", 95/100),
   ("corrupt", 85/100), ("deadlock", 8/10), ("memory", 7/10),
   ("performance", 5/10)]

/-- An `axioms` table row (src/mas.py lines 61-72).  `domain` and
`inverted_statement` are nullable columns, hence `Option`. -/
structure AxiomRow where
  id : Nat
  component : String
  domain : Option String
  statement : String
  inverted_statement : Option String
  status : String
  deriving DecidableEq, Repr

/-- Embedding of `PRAAgent.assess_risk` (src/mas.py lines 680-727): probability =
min(0.95, prior + Σ keyword boosts); severity = max over matching impact
keywords starting from 0.5.  The prior is looked up in `BASE_RATES`; a
domain that is NULL or absent from the table falls back to
`BASE_RATES["default"]` = 0.10 (in the source, `axiom.get("domain",
"default")` yields `None` for a NULL column and `BASE_RATES.get(None,
BASE_RATES["default"])` then returns the default rate). -/
def assess_risk (ax : AxiomRow) : ℚ × ℚ :=
  let inverted := pyLower (ax.inverted_statement.getD "")
  let prior : ℚ :=
    (ax.domain.bind (fun d => List.lookup d BASE_RATES)).getD (10/100)
  let likelihood_boost : ℚ :=
    ((risk_keywords.filter (fun kb => pyContains kb.1 inverted)).map
      (fun kb => kb.2)).sum
  let probability := min (95/100) (prior + likelihood_boost)
  let severity :=
    severity_keywords.foldl
      (fun sev kb => if pyContains kb.1 inverted then max sev kb.2 else sev)
      (1/2)
  (probability, severity)

/-- Embedding of `PRAAgent.generate_failure_description` (src/mas.py lines 749-755). -/
def generate_failure_description (ax : AxiomRow) : String :=
  ax.component ++ " failure when: " ++ ax.inverted_statement.getD ""

/-- The `mechanisms` table of `PRAAgent.identify_mechanism` (src/mas.py
lines 761-770), in source order. -/
def mechanisms : List (String × String) :=
  [("race", "Race Condition"), ("leak", "Resource Leak"),
   ("crash", "Runtime Exception"), ("corrupt", "Data Corruption"),
   ("deadlock", "Deadlock"), ("overflow", "Buffer Overflow"),
   ("timeout", "Timeout"), ("inconsistent", "State Inconsistency")]

/-- Embedding of `PRAAgent.identify_mechanism` (src/mas.py lines 757-776): first
keyword contained in the lowered inverted statement wins; otherwise
"Unknown Mechanism". -/
def identify_mechanism (ax : AxiomRow) : String :=
  let inverted := pyLower (ax.inverted_statement.getD "")
  ((mechanisms.find? (fun km => pyContains km.1 inverted)).map
    (fun km => km.2)).getD "Unknown Mechanism"

/-- The `or_gate` closure of `PRAAgent.fault_tree_analysis` (src/mas.py
lines 787-791): fold `result = result + p - result*p` from 0. -/
def or_gate (probabilities : List ℚ) : ℚ :=
  probabilities.foldl (fun result p => result + p - result * p) 0

/-- The `and_gate` closure of `PRAAgent.fault_tree_analysis` (src/mas.py
lines 794-798): product of the probabilities, from 1. -/
def and_gate (probabilities : List ℚ) : ℚ :=
  probabilities.foldl (fun result p => result * p) 1

/-- A `failure_vectors` table row (src/mas.py lines 75-88). -/
structure FailureVector where
  id : Nat
  axiom_id : Nat
  description : String
  mechanism : Option String
  probability : ℚ
  severity : ℚ
  risk_score : ℚ
  deriving DecidableEq, Repr

/-- A `patterns` table row (src/mas.py lines 91-101). -/
structure PatternRow where
  id : Nat
  name : String
  pattern_type : String
  regex : String
  risk_level : String
  description : Option String
  occurrences : Nat
  deriving DecidableEq, Repr

/-- A change-notification event as built by the `Blackboard` mutators:
a `"type"` tag plus the affected row id (src/mas.py lines 145, 162, 189). -/
structure ChangeEvent where
  etype : String
  ref_id : Nat
  deriving DecidableEq, Repr

/-- A subscriber channel: a Python `queue.Queue`.  `maxsize = 0` means
unbounded (the `queue.Queue()` default); `put_nowait` raises `Full`
exactly when `0 < maxsize ≤ len(items)`. -/
structure Subq where
  maxsize : Nat
  items : List ChangeEvent
  deriving DecidableEq, Repr

/-- Embedding of `Blackboard._notify` (src/mas.py lines 122-128): best-effort
`put_nowait` on every subscriber, dropping the event on a full queue. -/
def notifyAll (subscribers : List Subq) (event : ChangeEvent) : List Subq :=
  subscribers.map (fun q =>
    if 0 < q.maxsize ∧ q.maxsize ≤ q.items.length then q
    else { q with items := q.items ++ [event] })

/-- The `Blackboard` state (src/mas.py lines 41-295): the three SQLite
tables, the event log (payload JSON omitted: agent and event type only),
the subscriber list, and the AUTOINCREMENT counters (SQLite row ids
start at 1). -/
structure Blackboard where
  axioms : List AxiomRow
  failure_vectors : List FailureVector
  patterns : List PatternRow
  events : List (String × String)
  subscribers : List Subq
  next_axiom_id : Nat
  next_vector_id : Nat
  next_pattern_id : Nat
  deriving DecidableEq, Repr

/-- A freshly constructed `Blackboard` (empty tables, no subscribers). -/
def emptyBlackboard : Blackboard :=
  ⟨[], [], [], [], [], 1, 1, 1⟩

/-- Embedding of `Blackboard.subscribe` (src/mas.py lines 116-120): append a fresh
unbounded `queue.Queue()` to the subscriber list. -/
def subscribe (bb : Blackboard) : Blackboard :=
  { bb with subscribers := bb.subscribers ++ [⟨0, []⟩] }

/-- Embedding of `Blackboard.add_axiom` (src/mas.py lines 130-147): insert a PENDING
axiom, log AXIOM_ADDED, notify, return the new row id. -/
def add_axiom (bb : Blackboard) (component : String) (statement : String)
    (domain : Option String) : Blackboard × Nat :=
  let axiom_id := bb.next_axiom_id
  let row : AxiomRow := ⟨axiom_id, component, domain, statement, none, "PENDING"⟩
  ({ bb with
      axioms := bb.axioms ++ [row]
      next_axiom_id := axiom_id + 1
      events := bb.events ++ [("Blackboard", "AXIOM_ADDED")]
      subscribers := notifyAll bb.subscribers ⟨"AXIOM_ADDED", axiom_id⟩ },
   axiom_id)

/-- Embedding of `Blackboard.update_axiom_inversion` (src/mas.py lines 149-162):
`UPDATE axioms SET inverted_statement = ?, status = 'INVERTED' WHERE id = ?`
(a no-op on rows whose id differs; matching no row is not an error),
then log and notify unconditionally. -/
def update_axiom_inversion (bb : Blackboard) (axiom_id : Nat)
    (inverted_statement : String) : Blackboard :=
  { bb with
      axioms := bb.axioms.map (fun a =>
        if a.id = axiom_id then
          { a with inverted_statement := some inverted_statement,
                   status := "INVERTED" }
        else a)
      events := bb.events ++ [("AxiomInverter", "AXIOM_INVERTED")]
      subscribers := notifyAll bb.subscribers ⟨"AXIOM_INVERTED", axiom_id⟩ }

/-- Embedding of `Blackboard.record_failure_vector` (src/mas.py lines 164-191):
compute `risk_score = probability * severity`, insert the row, log
VECTOR_RECORDED, notify, return the new row id. -/
def record_failure_vector (bb : Blackboard) (axiom_id : Nat)
    (description : String) (probability severity : ℚ)
    (mechanism : Option String) : Blackboard × Nat :=
  let risk_score := probability * severity
  let vector_id := bb.next_vector_id
  let row : FailureVector :=
    ⟨vector_id, axiom_id, description, mechanism, probability, severity, risk_score⟩
  ({ bb with
      failure_vectors := bb.failure_vectors ++ [row]
      next_vector_id := vector_id + 1
      events := bb.events ++ [("PRA", "VECTOR_RECORDED")]
      subscribers := notifyAll bb.subscribers ⟨"VECTOR_RECORDED", vector_id⟩ },
   vector_id)

/-- Embedding of `Blackboard.add_pattern` (src/mas.py lines 193-209): insert a
pattern row (occurrences defaults to 0), return the new row id. -/
def add_pattern (bb : Blackboard) (name pattern_type regex risk_level : String)
    (description : Option String) : Blackboard × Nat :=
  let pattern_id := bb.next_pattern_id
  let row : PatternRow :=
    ⟨pattern_id, name, pattern_type, regex, risk_level, description, 0⟩
  ({ bb with
      patterns := bb.patterns ++ [row]
      next_pattern_id := pattern_id + 1 },
   pattern_id)

/-- Embedding of `Blackboard.increment_pattern_occurrence` (src/mas.py lines 211-218):
`UPDATE patterns SET occurrences = occurrences + 1 WHERE id = ?`
(matching no row is not an error). -/
def increment_pattern_occurrence (bb : Blackboard) (pattern_id : Nat) :
    Blackboard :=
  { bb with
      patterns := bb.patterns.map (fun p =>
        if p.id = pattern_id then { p with occurrences := p.occurrences + 1 }
        else p) }

/-- Embedding of `Blackboard.get_inverted_axioms` (src/mas.py lines 228-235):
the rows with `status = 'INVERTED'`. -/
def get_inverted_axioms (bb : Blackboard) : List AxiomRow :=
  bb.axioms.filter (fun a => a.status = "INVERTED")

/-- The per-axiom body of `PRAAgent.process` (src/mas.py lines 659-678):
assess the risk; if probability exceeds the 0.1 significance threshold,
record a failure vector, else do nothing. -/
def praProcessStep (bb : Blackboard) (ax : AxiomRow) : Blackboard :=
  let pr := assess_risk ax
  if pr.1 > 1/10 then
    (record_failure_vector bb ax.id (generate_failure_description ax)
      pr.1 pr.2 (some (identify_mechanism ax))).1
  else bb

/-- Embedding of `PRAAgent.process` (src/mas.py lines 655-678): fetch the inverted
axioms once, then run the per-axiom body over each in order. -/
def praProcess (bb : Blackboard) : Blackboard :=
  (get_inverted_axioms bb).foldl praProcessStep bb

/-- The inverted axioms of a state whose assessed probability clears the
0.1 significance threshold of `PRAAgent.process`. -/
def qualifyingAxioms (bb : Blackboard) : List AxiomRow :=
  (get_inverted_axioms bb).filter (fun a => (assess_risk a).1 > 1/10)

end MAS

namespace Forensic

/-- A `PatternRecognizer.PATTERNS` entry (src/xcode_forensic.py lines
392-435): regex text, tag, description, severity. -/
structure PatternSig where
  regex : String
  tag : String
  sdesc : String
  severity : String
  deriving DecidableEq, Repr

/-- Embedding of `PatternRecognizer.PATTERNS` (src/xcode_forensic.py lines 392-435),
in source order.  Regex source text is carried verbatim (braces written
with character escapes). -/
def PATTERNS : List PatternSig :=
  [⟨"-Xlinker\\s+-interposable", "INTERPOSABLE_FLAG",
    "Correct -interposable flag present", "CONFIG"⟩,
   ⟨"dlsym\\s*\\([^,]+,\\s*\\\"[a-zA-Z][a-zA-Z0-9_]*\\\"", "UNMANGLED_SYMBOL",
    "dlsym with unmangled Swift symbol", "CRITICAL"⟩,
   ⟨"XCTAssertEqual\\s*\\([^)]*analytics", "GIANT_TEST",
    "TCA Assertion Roulette - analytics in test", "MEDIUM"⟩,
   ⟨"Aspnet_regiis", "DOTNET_HALLUCINATION",
    "Windows IIS command in Swift code", "HIGH"⟩,
   ⟨"GOPATH|GOROOT|go\\s+build", "GOLANG_HALLUCINATION",
    "GoLang environment/command in Swift", "HIGH"⟩,
   ⟨"@StateObject\\s+var\\s+\\w+\\s*=\\s*\\w+\\(\\)", "INIT_LEAK",
    "StateObject initialized inline in declaration", "HIGH"⟩,
   ⟨"@State\\s+var\\s+\\w+\\s*:\\s*\\w+\\s*=\\s*\\w+\\(\\)", "STATE_INIT",
    "@State with inline class initialization", "MEDIUM"⟩,
   ⟨"init\\s*\\([^)]*\\)\\s*\\\x7b[^\x7d]*(fetch|load|start|request)",
    "INIT_SIDE_EFFECT", "Side-effect detected in initializer", "CRITICAL"⟩,
   ⟨"force_cast|as!", "FORCE_CAST",
    "Force cast can cause runtime crash", "HIGH"⟩,
   ⟨"try!", "FORCE_TRY",
    "Force try can cause runtime crash", "HIGH"⟩,
   ⟨"\\[\\s*weak\\s+self\\s*\\]", "WEAK_SELF",
    "Proper weak self in closure (GOOD)", "GOOD"⟩,
   ⟨"\\\x7b\\s*self\\.", "STRONG_SELF_CLOSURE",
    "Strong self capture in closure - potential leak", "MEDIUM"⟩,
   ⟨"DispatchQueue\\.main\\.async\\s*\\\x7b[^\x7d]*self\\.", "MAIN_QUEUE_SELF",
    "Main queue async with strong self", "MEDIUM"⟩,
   ⟨"Timer\\.scheduledTimer.*selector", "TIMER_SELECTOR",
    "Timer with selector - potential retain cycle", "MEDIUM"⟩]

/-- Embedding of `CodeBrainArtifact` (src/xcode_forensic.py lines 643-651). -/
structure CodeBrainArtifact where
  aid : String
  description : String
  code : String
  config : String
  source_file : String
  metadata : List (String × String)
  deriving DecidableEq, Repr

/-- A finding dict as built by `PatternRecognizer.analyze`
(src/xcode_forensic.py lines 464-497): the rule tag (`"type"`), its
description, risk severity, occurrence count and sample matches. -/
structure Finding where
  tag : String
  fdesc : String
  severity : String
  occurrences : Nat
  samples : List String
  deriving DecidableEq, Repr

/-- The per-pattern body of the scanning loop of
`PatternRecognizer.analyze` (src/xcode_forensic.py lines 457-477),
parameterized by `findall`, the semantics of Python's `re.findall` over
a compiled pattern (the `re` module is external to the repository; for
group-capturing patterns `findall` yields the captured text, which the
source coerces to strings — both are `String` here).  CONFIG-severity
patterns are skipped; a rule with matches yields a finding carrying the
rule tag, description, severity, occurrence count and first 3 samples;
findings for GOOD-severity rules are built but not appended. -/
def scan_pattern (findall : String → String → List String)
    (artifact : CodeBrainArtifact) (pt : PatternSig) : Option Finding :=
  if pt.severity = "CONFIG" then none
  else
    let ms := findall pt.regex artifact.code
    if ms.isEmpty then none
    else
      let finding : Finding :=
        ⟨pt.tag, pt.sdesc, pt.severity, ms.length, ms.take 3⟩
      if pt.severity ≠ "GOOD" then some finding else none

/-- Embedding of `PatternRecognizer.analyze` (src/xcode_forensic.py lines 451-503):
run the pattern scan over the catalog, then the linker-configuration
checks on `artifact.config` (Python truthiness of a string is
non-emptiness). -/
def analyze (findall : String → String → List String)
    (artifact : CodeBrainArtifact) : List Finding :=
  let code_findings := PATTERNS.filterMap (scan_pattern findall artifact)
  let config_findings :=
    if artifact.config ≠ "" then
      if ¬ MAS.pyContains "-interposable" artifact.config = true ∧
         ¬ MAS.pyContains "-Xlinker" artifact.config = true then
        [(⟨"MISSING_INTERPOSABLE", "Missing -Xlinker -interposable flag",
           "CRITICAL", 1,
           ["Current flags: \x27" ++ artifact.config ++ "\x27"]⟩ : Finding)]
      else []
    else
      [(⟨"NO_CONFIG", "No linker configuration provided", "HIGH", 1,
         ["Empty config context"]⟩ : Finding)]
  code_findings ++ config_findings

/-- Fuel-driven scan for case-insensitive literal occurrences:
at each position, if the (lowered) pattern is a prefix of the (lowered)
remaining text, record the matched slice and continue past it
(non-overlapping, left to right), else advance one character. -/
def findLitAux (p : List Char) : Nat → List Char → List (List Char)
  | 0, _ => []
  | _ + 1, [] => []
  | fuel + 1, c :: rest =>
    if (p.map Char.toLower).isPrefixOf ((c :: rest).map Char.toLower) ∧ p ≠ []
    then (c :: rest).take p.length :: findLitAux p fuel ((c :: rest).drop p.length)
    else findLitAux p fuel rest

/-- Embedding of `re.findall` semantics, under `re.IGNORECASE`, for a pattern that is
a non-empty literal with no regex metacharacters (such as `try!`):
all non-overlapping occurrences, scanned left to right. -/
def findLiteralCI (pat text : String) : List String :=
  (findLitAux pat.toList text.toList.length text.toList).map String.mk

end Forensic

namespace MAS

/-- States reachable through the `Blackboard` mutating interface
(src/mas.py lines 41-295): a fresh board, extended by any sequence of
`add_axiom`, `update_axiom_inversion`, `record_failure_vector`,
`add_pattern`, `increment_pattern_occurrence` and `subscribe` calls
(these are the only sites that touch the store's state). -/
inductive ReachBB : Blackboard → Prop where
  | init : ReachBB emptyBlackboard
  | addAxiom (bb : Blackboard) (c st : String) (d : Option String) :
      ReachBB bb → ReachBB ( add_axiom bb c st d).1
  | updateInv (bb : Blackboard) (aid : Nat) (inv : String) :
      ReachBB bb → ReachBB (update_axiom_inversion bb aid inv)
  | recordVec (bb : Blackboard) (aid : Nat) (d : String) (p s : ℚ)
      (m : Option String) :
      ReachBB bb → ReachBB (record_failure_vector bb aid d p s m).1
  | addPat (bb : Blackboard) (n t r rl : String) (d : Option String) :
      ReachBB bb → ReachBB (add_pattern bb n t r rl d).1
  | incPat (bb : Blackboard) (pid : Nat) :
      ReachBB bb → ReachBB (increment_pattern_occurrence bb pid)
  | sub (bb : Blackboard) :
      ReachBB bb → ReachBB (subscribe bb)

/-- A reachable store holding one inverted axiom whose inversion
mentions "leak" and "crash" (assessed probability 0.6 > 0.1). -/
def exC1 : Blackboard :=
  update_axiom_inversion
    ( add_axiom emptyBlackboard "Memory" "Objects are freed promptly" none).1
    1 "objects may leak and crash"

/-- A reachable store holding one inverted axiom in the "storage" domain
whose inversion matches no risk keyword (assessed probability 0.05). -/
def exC6 : Blackboard :=
  update_axiom_inversion
    ( add_axiom emptyBlackboard "Storage" "Writes are atomic"
      (some "storage")).1
    1 "writes interleave badly"

/-- A reachable store with one axiom and one registered pattern, used to
exercise the unknown-id no-ops. -/
def exC7 : Blackboard :=
  (add_pattern
    ( add_axiom emptyBlackboard "Net" "Calls return" (some "network")).1
    "Singleton Pattern" "architecture" "shared" "MEDIUM" none).1

end MAS

namespace Forensic

/-- An artifact whose code contains `try!` and that supplies no linker
configuration. -/
def exArtifact : CodeBrainArtifact :=
  ⟨"artifact-001", "demo snippet", "let x = try! decode(data)", "", "", []⟩

end Forensic

namespace MAS

lemma or_gate_foldl (l : List ℚ) (acc : ℚ) :
    l.foldl (fun result p => result + p - result * p) acc
      = 1 - (1 - acc) * (l.map (fun p => 1 - p)).prod := by
  induction l generalizing acc with
  | nil => simp
  | cons p l ih =>
    simp only [List.foldl_cons, List.map_cons, List.prod_cons, ih]
    ring

lemma or_gate_closed_form (l : List ℚ) :
    or_gate l = 1 - (l.map (fun p => 1 - p)).prod := by
  simp [or_gate, or_gate_foldl]

lemma complement_prod_bounds (l : List ℚ) (h : ∀ p ∈ l, 0 ≤ p ∧ p ≤ 1) :
    0 ≤ (l.map (fun p => 1 - p)).prod ∧ (l.map (fun p => 1 - p)).prod ≤ 1 := by
  induction l with
  | nil => simp
  | cons p l ih =>
    obtain ⟨hp0, hp1⟩ := h p (List.mem_cons_self p l)
    obtain ⟨hr0, hr1⟩ := ih (fun q hq => h q (List.mem_cons_of_mem p hq))
    simp only [List.map_cons, List.prod_cons]
    constructor
    · exact mul_nonneg (by linarith) hr0
    · nlinarith

/-- C3: the OR-gate fold maps the empty list to 0 and a singleton to its
element, satisfies OR-gate([p,p]) = 2p − p² on [0,1], is invariant under
permutation of its input, and maps lists with entries in [0,1] into
[0,1]. -/
theorem or_gate_spec :
    or_gate ([] : List ℚ) = 0 ∧
    (∀ p : ℚ, or_gate [p] = p) ∧
    (∀ p : ℚ, 0 ≤ p → p ≤ 1 → or_gate [p, p] = 2 * p - p ^ 2) ∧
    (∀ l₁ l₂ : List ℚ, l₁.Perm l₂ → or_gate l₁ = or_gate l₂) ∧
    (∀ l : List ℚ, (∀ p ∈ l, 0 ≤ p ∧ p ≤ 1) →
      0 ≤ or_gate l ∧ or_gate l ≤ 1) := by
  refine ⟨rfl, ?_, ?_, ?_, ?_⟩
  · intro p
    simp [or_gate_closed_form]
  · intro p _ _
    simp only [or_gate_closed_form, List.map_cons, List.map_nil,
      List.prod_cons, List.prod_nil]
    ring
  · intro l₁ l₂ hperm
    rw [or_gate_closed_form, or_gate_closed_form,
      (hperm.map (fun p => 1 - p)).prod_eq]
  · intro l h
    obtain ⟨h0, h1⟩ := complement_prod_bounds l h
    rw [or_gate_closed_form]
    exact ⟨by linarith, by linarith⟩

/-- Witness for C3 at concrete inputs. -/
theorem or_gate_spec_witness :
    or_gate [(1 : ℚ)/2, 1/2] = 2 * (1/2) - (1/2) ^ 2 ∧
    or_gate [(1 : ℚ)/2, 1/3] = or_gate [(1 : ℚ)/3, 1/2] ∧
    0 ≤ or_gate [(1 : ℚ)/2, 1/3] ∧ or_gate [(1 : ℚ)/2, 1/3] ≤ 1 :=
  ⟨or_gate_spec.2.2.1 (1/2) (by norm_num) (by norm_num),
   or_gate_spec.2.2.2.1 _ _ (List.Perm.swap (1/3) (1/2) []),
   (or_gate_spec.2.2.2.2 [1/2, 1/3] (by intro p hp; fin_cases hp <;> norm_num)).1,
   (or_gate_spec.2.2.2.2 [1/2, 1/3] (by intro p hp; fin_cases hp <;> norm_num)).2⟩

/-- C2: for probability and severity in [0,1], `record_failure_vector`
appends exactly one record whose stored `risk_score` is the exact
product `probability * severity`, and that score lies in [0,1]. -/
theorem record_failure_vector_spec (bb : Blackboard) (axiom_id : Nat)
    (description : String) (p s : ℚ) (mechanism : Option String)
    (hp0 : 0 ≤ p) (hp1 : p ≤ 1) (hs0 : 0 ≤ s) (hs1 : s ≤ 1) :
    (record_failure_vector bb axiom_id description p s mechanism).1.failure_vectors
      = bb.failure_vectors ++
        [⟨bb.next_vector_id, axiom_id, description, mechanism, p, s, p * s⟩] ∧
    0 ≤ p * s ∧ p * s ≤ 1 :=
  ⟨rfl, mul_nonneg hp0 hs0, by nlinarith⟩

/-- Witness for C2 at p = 1/2, s = 1/3 on a fresh store. -/
theorem record_failure_vector_spec_witness :
    (record_failure_vector emptyBlackboard 1 "d" (1/2) (1/3) none).1.failure_vectors
      = emptyBlackboard.failure_vectors ++
        [⟨emptyBlackboard.next_vector_id, 1, "d", none, 1/2, 1/3, (1/2) * (1/3)⟩] ∧
    0 ≤ (1/2 : ℚ) * (1/3) ∧ (1/2 : ℚ) * (1/3) ≤ 1 :=
  record_failure_vector_spec emptyBlackboard 1 "d" (1/2) (1/3) none
    (by norm_num) (by norm_num) (by norm_num) (by norm_num)

lemma categorize_risk_eq (x : ℚ) :
    categorize_risk x =
      if 8/10 ≤ x then "CRITICAL"
      else if 6/10 ≤ x then "HIGH"
      else if 4/10 ≤ x then "MEDIUM"
      else if 2/10 ≤ x then "LOW"
      else "LOW" := by
  simp only [categorize_risk, RISK_THRESHOLDS, firstAtLeast, ge_iff_le]
  split_ifs <;> simp

/-- C4: `categorize_risk` is total on [0,1] with values among the four
levels, driven by the descending thresholds 0.8/0.6/0.4/0.2 (anything
below every threshold is LOW); in particular 0.85 ↦ CRITICAL and
0.2 ↦ LOW. -/
theorem categorize_risk_spec :
    (∀ x : ℚ, 0 ≤ x → x ≤ 1 →
      (categorize_risk x = "CRITICAL" ∨ categorize_risk x = "HIGH" ∨
       categorize_risk x = "MEDIUM" ∨ categorize_risk x = "LOW")) ∧
    (∀ x : ℚ, 8/10 ≤ x → categorize_risk x = "CRITICAL") ∧
    (∀ x : ℚ, 6/10 ≤ x → x < 8/10 → categorize_risk x = "HIGH") ∧
    (∀ x : ℚ, 4/10 ≤ x → x < 6/10 → categorize_risk x = "MEDIUM") ∧
    (∀ x : ℚ, x < 4/10 → categorize_risk x = "LOW") ∧
    categorize_risk (85/100) = "CRITICAL" ∧
    categorize_risk (2/10) = "LOW" := by
  refine ⟨?_, ?_, ?_, ?_, ?_, ?_, ?_⟩
  · intro x _ _
    rw [categorize_risk_eq]
    split_ifs <;> tauto
  · intro x h
    rw [categorize_risk_eq, if_pos h]
  · intro x h1 h2
    rw [categorize_risk_eq, if_neg (by linarith), if_pos h1]
  · intro x h1 h2
    rw [categorize_risk_eq, if_neg (by linarith), if_neg (by linarith),
      if_pos h1]
  · intro x h
    rw [categorize_risk_eq, if_neg (by linarith), if_neg (by linarith),
      if_neg (by linarith)]
    split_ifs <;> rfl
  · rw [categorize_risk_eq, if_pos (by norm_num)]
  · rw [categorize_risk_eq, if_neg (by norm_num), if_neg (by norm_num),
      if_neg (by norm_num), if_pos (by norm_num)]

/-- Witness for C4 at concrete scores. -/
theorem categorize_risk_spec_witness :
    (categorize_risk (1/2 : ℚ) = "CRITICAL" ∨ categorize_risk (1/2 : ℚ) = "HIGH" ∨
     categorize_risk (1/2 : ℚ) = "MEDIUM" ∨ categorize_risk (1/2 : ℚ) = "LOW") ∧
    categorize_risk (1/2 : ℚ) = "MEDIUM" ∧
    categorize_risk (9/10 : ℚ) = "CRITICAL" ∧
    categorize_risk (1/10 : ℚ) = "LOW" :=
  ⟨categorize_risk_spec.1 (1/2) (by norm_num) (by norm_num),
   categorize_risk_spec.2.2.2.1 (1/2) (by norm_num) (by norm_num),
   categorize_risk_spec.2.1 (9/10) (by norm_num),
   categorize_risk_spec.2.2.2.2.1 (1/10) (by norm_num)⟩

/-- C9: the negation engine is deterministic — its output depends only
on the input statement: identical inputs yield identical outputs. -/
theorem invert_logic_deterministic (s₁ s₂ : String) (h : s₁ = s₂) :
    invert_logic s₁ = invert_logic s₂ :=
  congrArg invert_logic h

/-- Witness for C9: two runs on the same statement agree. -/
theorem invert_logic_deterministic_witness :
    invert_logic "Cache is fast" = invert_logic "Cache is fast" :=
  invert_logic_deterministic "Cache is fast" "Cache is fast" rfl

lemma map_if_id {α : Type} (l : List α) (p : α → Prop) [DecidablePred p]
    (f : α → α) (h : ∀ a ∈ l, ¬ p a) :
    l.map (fun a => if p a then f a else a) = l := by
  induction l with
  | nil => rfl
  | cons a as ih =>
    simp only [List.map_cons, if_neg (h a (List.mem_cons_self a as)),
      ih (fun b hb => h b (List.mem_cons_of_mem a hb)), List.cons.injEq,
      and_self]

/-- C7: `update_axiom_inversion` and `increment_pattern_occurrence` on
an id matching no stored row raise no error and leave every stored axiom
and every stored pattern unchanged. -/
theorem unknown_id_silent_noop (bb : Blackboard) (aid pid : Nat)
    (inv : String)
    (ha : ∀ a ∈ bb.axioms, a.id ≠ aid)
    (hp : ∀ p ∈ bb.patterns, p.id ≠ pid) :
    (update_axiom_inversion bb aid inv).axioms = bb.axioms ∧
    (update_axiom_inversion bb aid inv).patterns = bb.patterns ∧
    (increment_pattern_occurrence bb pid).patterns = bb.patterns ∧
    (increment_pattern_occurrence bb pid).axioms = bb.axioms :=
  ⟨map_if_id bb.axioms (fun a => a.id = aid) _ ha, rfl,
   map_if_id bb.patterns (fun p => p.id = pid) _ hp, rfl⟩

/-- Witness for C7: unknown id 99 on a store holding one axiom (id 1)
and one pattern (id 1). -/
theorem unknown_id_silent_noop_witness :
    (update_axiom_inversion exC7 99 "x").axioms = exC7.axioms ∧
    (update_axiom_inversion exC7 99 "x").patterns = exC7.patterns ∧
    (increment_pattern_occurrence exC7 99).patterns = exC7.patterns ∧
    (increment_pattern_occurrence exC7 99).axioms = exC7.axioms :=
  unknown_id_silent_noop exC7 99 99 "x" (by decide) (by decide)

/-- C5 counterexample: "foo  bar" (two spaces) has no recognized token,
yet `invert_logic` returns the whitespace-normalized "foo bar", not the
generic wrapper template applied to the statement. -/
theorem invert_logic_template_counterexample :
    (∀ w ∈ splitWs "foo  bar",
      List.lookup (pyStrip (pyLower w)) NEGATIONS = none ∧
      List.lookup (pyStrip (pyLower w)) INVERSIONS = none) ∧
    invert_logic "foo  bar" = "foo bar" ∧
    ¬ invert_logic "foo  bar" = "It is NOT guaranteed that: " ++ "foo  bar" :=
  ⟨by decide, by decide, by decide⟩

/-- C5 amended: if no token of the statement is in either vocabulary
table and the statement's whitespace is already canonical (it equals the
single-space join of its own tokens), `invert_logic` returns the generic
wrapper template; and on every input whatsoever it never returns the
unmodified statement. -/
theorem invert_logic_fallback_amended :
    (∀ s : String,
      (∀ w ∈ splitWs s,
        List.lookup (pyStrip (pyLower w)) NEGATIONS = none ∧
        List.lookup (pyStrip (pyLower w)) INVERSIONS = none) →
      String.intercalate " " (splitWs s) = s →
      invert_logic s = "It is NOT guaranteed that: " ++ s) ∧
    (∀ s : String, invert_logic s ≠ s) := by
  have hkey : ∀ s : String,
      invert_logic s =
        if String.intercalate " " ((splitWs s).map invertWord) = s
        then "It is NOT guaranteed that: " ++ s
        else String.intercalate " " ((splitWs s).map invertWord) :=
    fun s => rfl
  constructor
  · intro s hnone hws
    have hmap : (splitWs s).map invertWord = splitWs s := by
      have h1 : (splitWs s).map invertWord = (splitWs s).map id :=
        List.map_congr_left (fun w hw => by
          obtain ⟨hn, hi⟩ := hnone w hw
          simp only [invertWord, hn, hi, id])
      rw [h1, List.map_id]
    rw [hkey s, hmap, hws, if_pos rfl]
  · intro s
    rw [hkey s]
    split_ifs with hr
    · intro heq
      have hlen := congrArg String.length heq
      rw [String.length_append] at hlen
      have : ("It is NOT guaranteed that: " : String).length = 27 := rfl
      omega
    · exact hr

/-- Witness for C5 amended: a canonical statement with no recognized
vocabulary receives the wrapper template. -/
theorem invert_logic_fallback_amended_witness :
    invert_logic "hello world" = "It is NOT guaranteed that: hello world" :=
  invert_logic_fallback_amended.1 "hello world" (by decide) (by decide)

lemma praFold_failure_vectors (L : List AxiomRow) (bb : Blackboard) :
    ∃ new : List FailureVector,
      (L.foldl praProcessStep bb).failure_vectors = bb.failure_vectors ++ new ∧
      new.map (fun v => v.axiom_id)
        = (L.filter (fun a => (assess_risk a).1 > 1/10)).map (fun a => a.id) ∧
      ∀ v ∈ new, ∃ a ∈ L, (assess_risk a).1 > 1/10 ∧
        v.axiom_id = a.id ∧ v.probability = (assess_risk a).1 := by
  induction L generalizing bb with
  | nil => exact ⟨[], by simp, by simp, by simp⟩
  | cons a L ih =>
    simp only [List.foldl_cons]
    by_cases hq : (1/10 : ℚ) < (assess_risk a).1
    · have hstep : praProcessStep bb a =
          (record_failure_vector bb a.id (generate_failure_description a)
            (assess_risk a).1 (assess_risk a).2
            (some (identify_mechanism a))).1 := by
        simp only [praProcessStep]
        rw [if_pos hq]
      rw [hstep]
      obtain ⟨new, h1, h2, h3⟩ :=
        ih (record_failure_vector bb a.id (generate_failure_description a)
          (assess_risk a).1 (assess_risk a).2 (some (identify_mechanism a))).1
      refine ⟨⟨bb.next_vector_id, a.id, generate_failure_description a,
        some (identify_mechanism a), (assess_risk a).1, (assess_risk a).2,
        (assess_risk a).1 * (assess_risk a).2⟩ :: new, ?_, ?_, ?_⟩
      · rw [h1]
        simp [record_failure_vector, List.append_assoc]
      · have hf : List.filter (fun x => decide ((assess_risk x).1 > 1/10)) (a :: L)
            = a :: List.filter (fun x => decide ((assess_risk x).1 > 1/10)) L :=
          List.filter_cons_of_pos (by exact decide_eq_true hq)
        rw [List.map_cons, h2, hf, List.map_cons]
      · intro v hv
        rcases List.mem_cons.mp hv with rfl | hv'
        · exact ⟨a, List.mem_cons_self a L, hq, rfl, rfl⟩
        · obtain ⟨b, hb, hbq, hid, hpr⟩ := h3 v hv'
          exact ⟨b, List.mem_cons_of_mem a hb, hbq, hid, hpr⟩
    · have hstep : praProcessStep bb a = bb := by
        simp only [praProcessStep]
        rw [if_neg hq]
      rw [hstep]
      obtain ⟨new, h1, h2, h3⟩ := ih bb
      refine ⟨new, h1, ?_, ?_⟩
      · have hf : List.filter (fun x => decide ((assess_risk x).1 > 1/10)) (a :: L)
            = List.filter (fun x => decide ((assess_risk x).1 > 1/10)) L :=
          List.filter_cons_of_neg (by exact fun h => hq (of_decide_eq_true h))
        rw [h2, hf]
      · intro v hv
        obtain ⟨b, hb, hbq, hid, hpr⟩ := h3 v hv
        exact ⟨b, List.mem_cons_of_mem a hb, hbq, hid, hpr⟩

lemma praFold_axioms (L : List AxiomRow) (bb : Blackboard) :
    (L.foldl praProcessStep bb).axioms = bb.axioms := by
  induction L generalizing bb with
  | nil => rfl
  | cons a L ih =>
    rw [List.foldl_cons, ih]
    simp only [praProcessStep]
    split_ifs <;> rfl

/-- C1 amended: a single Risk Assessor processing step appends exactly
one new risk record per qualifying axiom, in order, and leaves all
previously stored records untouched (records are immutable and created
once per step); uniqueness of the originating axiom across repeated
steps does not hold — see the counterexample. -/
theorem risk_record_exactly_once_per_step (bb : Blackboard) :
    ∃ new, (praProcess bb).failure_vectors = bb.failure_vectors ++ new ∧
      new.map (fun v => v.axiom_id)
        = (qualifyingAxioms bb).map (fun a => a.id) := by
  obtain ⟨new, h1, h2, _⟩ :=
    praFold_failure_vectors (get_inverted_axioms bb) bb
  exact ⟨new, h1, h2⟩

/-- C1 counterexample: starting from a reachable store with one
inverted, qualifying axiom (id 1), two Risk Assessor processing steps
over the unchanged inverted set leave two risk records both referencing
axiom 1 — per-axiom uniqueness of risk records fails across steps. -/
theorem duplicate_risk_records_counterexample :
    get_inverted_axioms (praProcess exC1) = get_inverted_axioms exC1 ∧
    (praProcess (praProcess exC1)).failure_vectors.map (fun v => v.axiom_id)
      = [1, 1] := by
  have hax : (praProcess exC1).axioms = exC1.axioms :=
    praFold_axioms (get_inverted_axioms exC1) exC1
  have hinv : get_inverted_axioms (praProcess exC1)
      = get_inverted_axioms exC1 := by
    unfold get_inverted_axioms
    rw [hax]
  refine ⟨hinv, ?_⟩
  obtain ⟨new1, h11, h12, _⟩ :=
    praFold_failure_vectors (get_inverted_axioms exC1) exC1
  obtain ⟨new2, h21, h22, _⟩ :=
    praFold_failure_vectors (get_inverted_axioms (praProcess exC1))
      (praProcess exC1)
  have hp2 : (praProcess (praProcess exC1)).failure_vectors
      = (praProcess exC1).failure_vectors ++ new2 := h21
  have hp1 : (praProcess exC1).failure_vectors
      = exC1.failure_vectors ++ new1 := h11
  rw [hp2, hp1, show exC1.failure_vectors = [] from rfl, List.nil_append,
    List.map_append, h12, h22, hinv]
  have hginv : get_inverted_axioms exC1
      = [⟨1, "Memory", none, "Objects are freed promptly",
          some "objects may leak and crash", "INVERTED"⟩] := by decide
  have hq : (1/10 : ℚ) < (assess_risk ⟨1, "Memory", none,
      "Objects are freed promptly", some "objects may leak and crash",
      "INVERTED"⟩).1 := by
    simp +decide [assess_risk, risk_keywords]
    norm_num
  rw [hginv, List.filter_cons_of_pos (by exact decide_eq_true hq)]
  rfl

/-- C6: every risk record added by a Risk Assessor processing step has
probability strictly above the 0.1 significance threshold, and an
inverted axiom whose assessed probability is at or below 0.1 contributes
no record: the records referencing its id are exactly those already
stored. -/
theorem significance_threshold_spec (bb : Blackboard) (aid : Nat)
    (h : ∀ a ∈ get_inverted_axioms bb, a.id = aid →
      ¬((assess_risk a).1 > 1/10)) :
    (∃ new, (praProcess bb).failure_vectors = bb.failure_vectors ++ new ∧
      ∀ v ∈ new, v.probability > 1/10) ∧
    (praProcess bb).failure_vectors.filter (fun v => v.axiom_id = aid)
      = bb.failure_vectors.filter (fun v => v.axiom_id = aid) := by
  obtain ⟨new, h1, h2, h3⟩ :=
    praFold_failure_vectors (get_inverted_axioms bb) bb
  constructor
  · refine ⟨new, h1, fun v hv => ?_⟩
    obtain ⟨a, _, haq, _, hpr⟩ := h3 v hv
    rw [hpr]
    exact haq
  · have hnone : ∀ v ∈ new, ¬ v.axiom_id = aid := by
      intro v hv heq
      obtain ⟨a, hmem, haq, hid, _⟩ := h3 v hv
      exact h a hmem (by rw [← hid, heq]) haq
    have hp : (praProcess bb).failure_vectors = bb.failure_vectors ++ new := h1
    rw [hp, List.filter_append]
    have hfn : new.filter (fun v => decide (v.axiom_id = aid)) = [] :=
      List.filter_eq_nil_iff.mpr (fun v hv => by simpa using hnone v hv)
    rw [hfn, List.append_nil]

/-- Witness for C6: the sub-threshold inverted axiom of `exC6`
(assessed probability 0.05) produces no risk record. -/
theorem significance_threshold_spec_witness :
    (praProcess exC6).failure_vectors.filter (fun v => v.axiom_id = 1)
      = exC6.failure_vectors.filter (fun v => v.axiom_id = 1) :=
  (significance_threshold_spec exC6 1 (by
    intro a ha _
    rw [show get_inverted_axioms exC6
        = [⟨1, "Storage", some "storage", "Writes are atomic",
            some "writes interleave badly", "INVERTED"⟩] from by decide] at ha
    rw [List.mem_singleton.mp ha]
    simp +decide [assess_risk, risk_keywords, BASE_RATES, List.lookup]
    norm_num)).2

lemma notifyAll_maxsize (subs : List Subq) (e : ChangeEvent) :
    ∀ q ∈ notifyAll subs e, ∃ q₀ ∈ subs, q.maxsize = q₀.maxsize := by
  intro q hq
  obtain ⟨q₀, hq₀, heq⟩ := List.mem_map.mp hq
  refine ⟨q₀, hq₀, ?_⟩
  rw [← heq]
  split_ifs <;> rfl

lemma reach_subscribers_unbounded (bb : Blackboard) (h : ReachBB bb) :
    ∀ q ∈ bb.subscribers, q.maxsize = 0 := by
  induction h with
  | init => intro q hq; simp [emptyBlackboard] at hq
  | addAxiom bb' c st d hr ih =>
    intro q hq
    obtain ⟨q₀, h0, hm⟩ := notifyAll_maxsize bb'.subscribers _ q hq
    rw [hm]
    exact ih q₀ h0
  | updateInv bb' aid inv hr ih =>
    intro q hq
    obtain ⟨q₀, h0, hm⟩ := notifyAll_maxsize bb'.subscribers _ q hq
    rw [hm]
    exact ih q₀ h0
  | recordVec bb' aid d p s m hr ih =>
    intro q hq
    obtain ⟨q₀, h0, hm⟩ := notifyAll_maxsize bb'.subscribers _ q hq
    rw [hm]
    exact ih q₀ h0
  | addPat bb' n t r rl d hr ih => exact ih
  | incPat bb' pid hr ih => exact ih
  | sub bb' hr ih =>
    intro q hq
    rcases List.mem_append.mp hq with hmem | hmem
    · exact ih q hmem
    · rw [List.mem_singleton.mp hmem]

/-- C10: in every store state reachable through the Blackboard
interface, subscriber channels are unbounded (`queue.Queue()` with
maxsize 0), so the drop-on-full branch of `_notify` is unreachable:
broadcasting any change event appends it to every subscribed channel. -/
theorem subscriber_channels_never_drop (bb : Blackboard) (h : ReachBB bb) :
    (∀ q ∈ bb.subscribers, q.maxsize = 0) ∧
    ∀ e, notifyAll bb.subscribers e
      = bb.subscribers.map (fun q => { q with items := q.items ++ [e] }) := by
  have hm := reach_subscribers_unbounded bb h
  refine ⟨hm, fun e => ?_⟩
  unfold notifyAll
  refine List.map_congr_left (fun q hq => ?_)
  have hnc : ¬ (0 < q.maxsize ∧ q.maxsize ≤ q.items.length) := by
    rw [hm q hq]
    simp
  rw [if_neg hnc]

/-- Witness for C10: after one `subscribe` on a fresh store, a broadcast
event lands on the subscribed channel. -/
theorem subscriber_channels_never_drop_witness :
    notifyAll (subscribe emptyBlackboard).subscribers ⟨"AXIOM_ADDED", 1⟩
      = (subscribe emptyBlackboard).subscribers.map
          (fun q => { q with items := q.items ++ [⟨"AXIOM_ADDED", 1⟩] }) :=
  (subscriber_channels_never_drop (subscribe emptyBlackboard)
    (ReachBB.sub emptyBlackboard ReachBB.init)).2 ⟨"AXIOM_ADDED", 1⟩

end MAS

namespace Forensic

lemma isPrefixOf_map (f : Char → Char) :
    ∀ l₁ l₂ : List Char, l₁.isPrefixOf l₂ = true →
      (l₁.map f).isPrefixOf (l₂.map f) = true := by
  intro l₁
  induction l₁ with
  | nil => intro l₂ _; simp [List.isPrefixOf]
  | cons a as ih =>
    intro l₂ h
    cases l₂ with
    | nil => simp [List.isPrefixOf] at h
    | cons b bs =>
      simp only [List.isPrefixOf, Bool.and_eq_true, beq_iff_eq] at h
      obtain ⟨rfl, h2⟩ := h
      simp only [List.map_cons, List.isPrefixOf, Bool.and_eq_true,
        beq_iff_eq, true_and]
      exact ih bs h2

lemma containsSub_findLitAux (p : List Char) (hp : p ≠ []) :
    ∀ (fuel : Nat) (text : List Char), text.length ≤ fuel →
      MAS.containsSub p text = true → findLitAux p fuel text ≠ [] := by
  intro fuel
  induction fuel with
  | zero =>
    intro text hlen hc
    rw [List.length_eq_zero.mp (Nat.le_zero.mp hlen)] at hc
    cases p with
    | nil => exact absurd rfl hp
    | cons c cs => simp [MAS.containsSub, List.isEmpty] at hc
  | succ fuel ih =>
    intro text hlen hc
    cases text with
    | nil =>
      cases p with
      | nil => exact absurd rfl hp
      | cons c cs => simp [MAS.containsSub, List.isEmpty] at hc
    | cons c rest =>
      simp only [findLitAux]
      by_cases hpre :
          (p.map Char.toLower).isPrefixOf ((c :: rest).map Char.toLower)
            = true ∧ p ≠ []
      · rw [if_pos hpre]
        exact List.cons_ne_nil _ _
      · rw [if_neg hpre]
        simp only [MAS.containsSub, Bool.or_eq_true] at hc
        rcases hc with hpf | hrest
        · exact absurd ⟨isPrefixOf_map Char.toLower p (c :: rest) hpf, hp⟩ hpre
        · have hlen' : rest.length ≤ fuel := by
            simp only [List.length_cons] at hlen
            omega
          exact ih rest hlen' hrest

lemma pyContains_findLiteralCI (pat text : String)
    (hp : pat.toList ≠ []) (h : MAS.pyContains pat text = true) :
    findLiteralCI pat text ≠ [] := by
  unfold findLiteralCI
  intro hnil
  exact containsSub_findLitAux pat.toList hp text.toList.length text.toList
    (le_refl _) h (List.map_eq_nil_iff.mp hnil)

/-- C8: an artifact whose code contains the text `try!` receives, under
direct scanning, a finding tagged FORCE_TRY with severity HIGH carrying
the occurrence count and the first (at most 3) matched samples; and for
every matcher semantics and every artifact, the returned findings never
include a finding for a GOOD-tagged (benign/positive) rule, and every
finding carries at most 3 samples. -/
theorem force_try_finding_spec (artifact : CodeBrainArtifact)
    (h : MAS.pyContains "try!" artifact.code = true) :
    (∃ f ∈ analyze findLiteralCI artifact,
      f.tag = "FORCE_TRY" ∧ f.severity = "HIGH" ∧
      f.occurrences = (findLiteralCI "try!" artifact.code).length ∧
      f.samples = (findLiteralCI "try!" artifact.code).take 3) ∧
    (∀ findall : String → String → List String,
      ∀ f ∈ analyze findall artifact,
        f.severity ≠ "GOOD" ∧ f.samples.length ≤ 3) := by
  constructor
  · have hne : findLiteralCI "try!" artifact.code ≠ [] :=
      pyContains_findLiteralCI "try!" artifact.code (by decide) h
    refine ⟨⟨"FORCE_TRY", "Force try can cause runtime crash", "HIGH",
      (findLiteralCI "try!" artifact.code).length,
      (findLiteralCI "try!" artifact.code).take 3⟩, ?_, rfl, rfl, rfl, rfl⟩
    show _ ∈ analyze findLiteralCI artifact
    simp only [analyze]
    refine List.mem_append_left _ (List.mem_filterMap.mpr
      ⟨⟨"try!", "FORCE_TRY", "Force try can cause runtime crash", "HIGH"⟩,
        by decide, ?_⟩)
    simp only [scan_pattern]
    rw [if_neg (by decide), if_neg (fun hc => hne (List.isEmpty_iff.mp hc)),
      if_pos (by decide)]
  · intro findall f hf
    simp only [analyze] at hf
    rcases List.mem_append.mp hf with hcode | hconf
    · obtain ⟨pt, hptmem, hg⟩ := List.mem_filterMap.mp hcode
      simp only [scan_pattern] at hg
      split at hg
      · exact absurd hg (by simp)
      · split at hg
        · exact absurd hg (by simp)
        · split at hg
          · rename_i hgood
            obtain rfl := (Option.some.inj hg)
            exact ⟨hgood, by
              rw [List.length_take]
              exact Nat.min_le_left _ _⟩
          · exact absurd hg (by simp)
    · split at hconf
      · split at hconf
        · rw [List.mem_singleton.mp hconf]
          exact ⟨by simp, by simp⟩
        · simp at hconf
      · rw [List.mem_singleton.mp hconf]
        exact ⟨by simp, by simp⟩

/-- Witness for C8 at a concrete artifact containing `try!`. -/
theorem force_try_finding_spec_witness :
    MAS.pyContains "try!" exArtifact.code = true ∧
    ∃ f ∈ analyze findLiteralCI exArtifact,
      f.tag = "FORCE_TRY" ∧ f.severity = "HIGH" ∧
      f.occurrences = (findLiteralCI "try!" exArtifact.code).length ∧
      f.samples = (findLiteralCI "try!" exArtifact.code).take 3 :=
  ⟨by decide, (force_try_finding_spec exArtifact (by decide)).1⟩

end Forensic
